import Mathlib

/-!
# Verification of the Pomodoro timer state machine (src/script.js)

This file gives a shallow embedding of the timer logic of the Pomodoro
timer app and proves properties of it.

The app is a React component. Its session state consists of the current
mode, the running flag, the remaining seconds and the completed-rounds
counter, plus the user settings. State updates are performed by setter
calls batched per event; after each event, the effect
`useEffect(fun _ => setSecondsLeft initialSeconds) [initialSeconds]`
(line 144 of src/script.js) re-runs exactly when the value of
`initialSeconds` (the full duration of the current mode, recomputed by
`useMemo` from mode and settings) differs from its value at the previous
render, in which case it resets `secondsLeft` to that value. We model
each user-visible event as a function on a full state record, composed
with that conditional reset (`sync` below), which compares the value of
`initialSeconds` before and after the event, exactly as React compares
the dependency array across renders.

`secondsLeft` is modelled as `Int` (a JS number holding an integer), so
that non-negativity is a real property rather than a typing artifact.
-/

/-- User settings, as in `DEFAULT_SETTINGS` / the settings modal of
src/script.js. -/
structure Settings where
  workMinutes : Nat
  shortBreakMinutes : Nat
  longBreakMinutes : Nat
  roundsUntilLongBreak : Nat
  autoStartNext : Bool
  sound : Bool
  deriving DecidableEq, Repr

/-- `DEFAULT_SETTINGS` from src/script.js lines 3-10. -/
def DEFAULT_SETTINGS : Settings :=
  { workMinutes := 25
    shortBreakMinutes := 5
    longBreakMinutes := 15
    roundsUntilLongBreak := 4
    autoStartNext := false
    sound := true }

/-- The `Mode` enum from src/script.js line 62. -/
inductive Mode where
  | Work
  | Short
  | Long
  deriving DecidableEq, Repr

/-- `initialSeconds` (src/script.js lines 137-141): the full duration in
seconds of a given mode under given settings. -/
def initialSeconds (s : Settings) (m : Mode) : Nat :=
  match m with
  | Mode.Work => s.workMinutes * 60
  | Mode.Short => s.shortBreakMinutes * 60
  | Mode.Long => s.longBreakMinutes * 60

/-- The full component state of `App` (src/script.js lines 131-143). -/
structure AppState where
  settings : Settings
  mode : Mode
  isRunning : Bool
  roundsCompleted : Nat
  secondsLeft : Int
  deriving DecidableEq, Repr

/-- The effect at src/script.js line 144:
`useEffect(fun _ => setSecondsLeft initialSeconds) [initialSeconds]`.
After an event takes the state from `old` to `new`, React re-runs the
effect iff the value of `initialSeconds` changed between the two
renders; the effect then overwrites `secondsLeft` with the new full
duration of the current mode. -/
def sync (old new : AppState) : AppState :=
  if initialSeconds new.settings new.mode = initialSeconds old.settings old.mode then
    new
  else
    { new with secondsLeft := (initialSeconds new.settings new.mode : Int) }

/-- `onCompleteCycle` (src/script.js lines 158-171), the raw setter
sequence: force paused; if the completed mode was Work, increment
`roundsCompleted` and move to Long break when the incremented count is
divisible by `roundsUntilLongBreak`, else Short break; otherwise move to
Work; finally start running again when `autoStartNext` is set. -/
def onCompleteCycle (st : AppState) : AppState :=
  let st1 := { st with isRunning := false }
  if st.mode = Mode.Work then
    let nextRounds := st.roundsCompleted + 1
    let st2 := { st1 with roundsCompleted := nextRounds }
    let shouldLong := nextRounds % st.settings.roundsUntilLongBreak == 0
    let nextMode := if shouldLong then Mode.Long else Mode.Short
    let st3 := { st2 with mode := nextMode }
    if st.settings.autoStartNext then { st3 with isRunning := true } else st3
  else
    let st2 := { st1 with mode := Mode.Work }
    if st.settings.autoStartNext then { st2 with isRunning := true } else st2

/-- The full completion transition as triggered from the tick callback:
the callback pins `secondsLeft` at 0 (the `return 0` at line 152) and
calls `onCompleteCycle`; afterwards the line-144 effect fires iff the
full duration of the new mode differs in value from that of the
completed mode. -/
def completeCycle (st : AppState) : AppState :=
  sync st (onCompleteCycle { st with secondsLeft := 0 })

/-- The tick callback (src/script.js lines 147-156), scheduled once per
second while running: if at most one second remains, complete the cycle
with `secondsLeft` pinned at 0; otherwise decrement by one. -/
def tick (st : AppState) : AppState :=
  if st.secondsLeft ≤ 1 then
    completeCycle st
  else
    { st with secondsLeft := st.secondsLeft - 1 }

/-- `handleStartPause` (src/script.js line 173). -/
def handleStartPause (st : AppState) : AppState :=
  sync st { st with isRunning := !st.isRunning }

/-- `handleReset` (src/script.js line 174): force paused and set
`secondsLeft` directly back to the current mode's full duration. -/
def handleReset (st : AppState) : AppState :=
  sync st { st with
            isRunning := false
            secondsLeft := (initialSeconds st.settings st.mode : Int) }

/-- `switchMode` (src/script.js line 175): force paused and set the
mode; `secondsLeft` is only touched afterwards by the line-144 effect,
i.e. iff the full duration changed in value. -/
def switchMode (st : AppState) (next : Mode) : AppState :=
  sync st { st with isRunning := false, mode := next }

/-- The Clear Rounds button (src/script.js line 225). -/
def clearRounds (st : AppState) : AppState :=
  sync st { st with roundsCompleted := 0 }

/-- Committing the settings form (src/script.js line 249,
`onSave = fun s => setSettings s`): the settings are replaced wholesale;
`secondsLeft` is only touched afterwards by the line-144 effect, i.e.
iff the current mode's full duration changed in value. -/
def applySettings (st : AppState) (s : Settings) : AppState :=
  sync st { st with settings := s }

/-- The decimal digits of `n`, least significant first, as produced by
the JS `Number.prototype.toString` for a non-negative integer; `fuel`
bounds the recursion depth (taking `fuel = n` is always enough). -/
def toDigitsRev : Nat → Nat → List Nat
  | 0, _ => []
  | fuel + 1, n => if n = 0 then [] else n % 10 :: toDigitsRev fuel (n / 10)

/-- The base-10 string of a non-negative integer, as produced by the JS
`toString()` calls in `formatTime` (src/script.js lines 30-31). -/
def decimalStr (n : Nat) : String :=
  if n = 0 then "0" else String.mk ((toDigitsRev n n).reverse.map Nat.digitChar)

/-- The JS `padStart 2 0` call in `formatTime`: left-pad with the digit
zero up to length 2 (strings already of length at least 2 are kept). -/
def padStart2 (s : String) : String :=
  if s.length < 2 then String.mk (List.replicate (2 - s.length) '0') ++ s else s

/-- `formatTime` (src/script.js lines 29-33). -/
def formatTime (totalSeconds : Nat) : String :=
  padStart2 (decimalStr (totalSeconds / 60)) ++ ":" ++
    padStart2 (decimalStr (totalSeconds % 60))

/-- `total` (src/script.js line 177): `initialSeconds` with the JS
falsy-guard `x or 1`, which replaces 0 by 1. -/
def total (st : AppState) : Nat :=
  if initialSeconds st.settings st.mode = 0 then 1 else initialSeconds st.settings st.mode

/-- `progress` (src/script.js line 178): the clamped percentage of the
elapsed fraction of the current interval. JS number division is exact
on every value this expression is evaluated at in range; we model it in
the rationals. -/
def progress (st : AppState) : ℚ :=
  max 0 (min 100 ((1 - (st.secondsLeft : ℚ) / (total st : ℚ)) * 100))

/-- The result of `JSON.parse` on a stored settings blob, restricted to
the six fields `loadSettings` merges over the defaults: each field is
present with a value or absent. -/
structure PartialSettings where
  workMinutes : Option Nat
  shortBreakMinutes : Option Nat
  longBreakMinutes : Option Nat
  roundsUntilLongBreak : Option Nat
  autoStartNext : Option Bool
  sound : Option Bool
  deriving DecidableEq, Repr

/-- The JS object spread of the parsed blob over the defaults at
src/script.js line 19: a field present in the parsed blob wins, an
absent field keeps its default. -/
def mergeSettings (d : Settings) (p : PartialSettings) : Settings :=
  { workMinutes := p.workMinutes.getD d.workMinutes
    shortBreakMinutes := p.shortBreakMinutes.getD d.shortBreakMinutes
    longBreakMinutes := p.longBreakMinutes.getD d.longBreakMinutes
    roundsUntilLongBreak := p.roundsUntilLongBreak.getD d.roundsUntilLongBreak
    autoStartNext := p.autoStartNext.getD d.autoStartNext
    sound := p.sound.getD d.sound }

/-- `loadSettings` (src/script.js lines 14-23). `stored` is the result
of `localStorage.getItem` (`none` for a missing key); `parse` models
`JSON.parse`, with `none` for a parse error (the thrown exception is
caught by the surrounding try/catch, which returns the defaults). An
empty stored string is falsy in JS and also yields the defaults. -/
def loadSettings (stored : Option String)
    (parse : String → Option PartialSettings) : Settings :=
  match stored with
  | none => DEFAULT_SETTINGS
  | some raw =>
    if raw = "" then DEFAULT_SETTINGS
    else
      match parse raw with
      | none => DEFAULT_SETTINGS
      | some parsed => mergeSettings DEFAULT_SETTINGS parsed

/-- A concrete state used in several concrete evaluations: work and
short-break durations are both 5 minutes, one second remains in a
running Work interval. -/
def stWork5 : AppState :=
  { settings :=
      { workMinutes := 5, shortBreakMinutes := 5, longBreakMinutes := 15
        roundsUntilLongBreak := 4, autoStartNext := false, sound := true }
    mode := Mode.Work, isRunning := true, roundsCompleted := 0
    secondsLeft := 1 }

/-- A concrete state mid-countdown: work and short-break durations are
both 5 minutes, 100 seconds remain in a paused Work interval. -/
def stWork5Mid : AppState :=
  { settings :=
      { workMinutes := 5, shortBreakMinutes := 5, longBreakMinutes := 15
        roundsUntilLongBreak := 4, autoStartNext := false, sound := true }
    mode := Mode.Work, isRunning := false, roundsCompleted := 2
    secondsLeft := 100 }

/-- A concrete state mid-countdown under the default settings: 100
seconds remain in a running Work interval. -/
def stDefaultMid : AppState :=
  { settings := DEFAULT_SETTINGS
    mode := Mode.Work, isRunning := true, roundsCompleted := 1
    secondsLeft := 100 }

/-- A concrete running Work interval of one minute with 60 seconds
remaining under settings with a one-minute work duration. -/
def stWork1 : AppState :=
  { settings :=
      { workMinutes := 1, shortBreakMinutes := 5, longBreakMinutes := 15
        roundsUntilLongBreak := 4, autoStartNext := false, sound := true }
    mode := Mode.Work, isRunning := true, roundsCompleted := 0
    secondsLeft := 60 }

/-- Spec-side rendering of a counter field, following the spec words:
the decimal numeral zero-padded to width 2, i.e. a single leading zero
added exactly when the value has a single digit. -/
def specPad2 (n : Nat) : String :=
  if n < 10 then "0" ++ decimalStr n else decimalStr n

/-- Spec-side formatting, following the spec words: the string MM:SS
with MM the zero-padded minutes floor(t / 60) and SS the zero-padded
seconds t mod 60. -/
def specFormatTime (t : Nat) : String :=
  specPad2 (t / 60) ++ ":" ++ specPad2 (t % 60)

/-- Spec-side clamp, following the spec words clamp(lo, hi, x). -/
def specClamp (lo hi x : ℚ) : ℚ := max lo (min hi x)

/-- Spec-side configured duration in minutes of the current mode. -/
def specConfiguredMinutes (st : AppState) : Nat :=
  match st.mode with
  | Mode.Work => st.settings.workMinutes
  | Mode.Short => st.settings.shortBreakMinutes
  | Mode.Long => st.settings.longBreakMinutes

/-- Spec-side totalSecondsForMode, following the spec words: the full
duration of the current mode in seconds, except that a configured
duration of 0 is substituted with the divisor 1. -/
def specTotalSecondsForMode (st : AppState) : Nat :=
  if specConfiguredMinutes st = 0 then 1 else specConfiguredMinutes st * 60

/-- Spec-side progress fraction, following the spec words:
clamp(0, 100, (1 - secondsLeft / totalSecondsForMode) * 100). -/
def specProgress (st : AppState) : ℚ :=
  specClamp 0 100 ((1 - (st.secondsLeft : ℚ) / (specTotalSecondsForMode st : ℚ)) * 100)

/-- A parsed settings blob that only carries the work duration; the
other five fields are absent. -/
def pOnlyWork : PartialSettings :=
  { workMinutes := some 30, shortBreakMinutes := none, longBreakMinutes := none
    roundsUntilLongBreak := none, autoStartNext := none, sound := none }

/-- C4: Reset forces the running flag off, restores `secondsLeft` to the
full duration of the current mode regardless of prior countdown
progress, and leaves the mode and the completed-rounds counter (and the
settings) unchanged. -/
theorem handleReset_spec (st : AppState) :
    (handleReset st).isRunning = false ∧
    (handleReset st).secondsLeft = (initialSeconds st.settings st.mode : Int) ∧
    (handleReset st).mode = st.mode ∧
    (handleReset st).roundsCompleted = st.roundsCompleted ∧
    (handleReset st).settings = st.settings := by
  simp [handleReset, sync]

/-- C6: Clear Rounds zeroes the completed-rounds counter and changes
nothing else: mode, running flag, remaining seconds and settings are
untouched, whatever the current mode and running flag are. -/
theorem clearRounds_spec (st : AppState) :
    (clearRounds st).roundsCompleted = 0 ∧
    (clearRounds st).mode = st.mode ∧
    (clearRounds st).isRunning = st.isRunning ∧
    (clearRounds st).secondsLeft = st.secondsLeft ∧
    (clearRounds st).settings = st.settings := by
  simp [clearRounds, sync]

/-- C5 (amended): a manual mode switch forces the running flag off, sets
the mode to the target and leaves the completed-rounds counter and
settings unchanged; `secondsLeft` is reset to the target mode's full
duration when that duration differs in value from the current mode's
full duration, and is left unchanged (carrying over remaining time)
when the two durations are equal. -/
theorem switchMode_spec (st : AppState) (next : Mode) :
    (switchMode st next).isRunning = false ∧
    (switchMode st next).mode = next ∧
    (switchMode st next).roundsCompleted = st.roundsCompleted ∧
    (switchMode st next).settings = st.settings ∧
    (switchMode st next).secondsLeft =
      (if initialSeconds st.settings next = initialSeconds st.settings st.mode
       then st.secondsLeft
       else (initialSeconds st.settings next : Int)) := by
  unfold switchMode sync
  split <;> simp_all

/-- C5 (counterexample): with the work and short-break durations both
set to 5 minutes and 100 seconds left in a Work interval, switching to
the Short break keeps `secondsLeft` at 100 instead of resetting it to
the Short break's full duration of 300 seconds. -/
theorem switchMode_counterexample :
    (switchMode stWork5Mid Mode.Short).mode = Mode.Short ∧
    (switchMode stWork5Mid Mode.Short).secondsLeft = 100 ∧
    (initialSeconds stWork5Mid.settings Mode.Short : Int) = 300 ∧
    (switchMode stWork5Mid Mode.Short).secondsLeft ≠
      (initialSeconds stWork5Mid.settings Mode.Short : Int) := by
  decide

/-- C3 (amended): committing the settings form replaces the settings
wholesale and leaves mode, running flag and completed rounds unchanged;
`secondsLeft` is re-derived to the current mode's full duration under
the new settings when that duration differs in value from the current
mode's duration under the old settings, and is left unchanged (partial
progress kept) when the two durations are equal. -/
theorem applySettings_spec (st : AppState) (s : Settings) :
    (applySettings st s).settings = s ∧
    (applySettings st s).mode = st.mode ∧
    (applySettings st s).isRunning = st.isRunning ∧
    (applySettings st s).roundsCompleted = st.roundsCompleted ∧
    (applySettings st s).secondsLeft =
      (if initialSeconds s st.mode = initialSeconds st.settings st.mode
       then st.secondsLeft
       else (initialSeconds s st.mode : Int)) := by
  unfold applySettings sync
  split <;> simp_all

/-- C3 (counterexample): mid-countdown at 100 seconds left in a Work
interval under the default settings, saving a settings record that only
turns the sound off leaves `secondsLeft` at 100 instead of re-deriving
it to the Work interval's full duration of 1500 seconds. -/
theorem applySettings_counterexample :
    (applySettings stDefaultMid { DEFAULT_SETTINGS with sound := false }).settings =
      { DEFAULT_SETTINGS with sound := false } ∧
    (applySettings stDefaultMid { DEFAULT_SETTINGS with sound := false }).secondsLeft = 100 ∧
    (initialSeconds { DEFAULT_SETTINGS with sound := false } stDefaultMid.mode : Int) = 1500 ∧
    (applySettings stDefaultMid { DEFAULT_SETTINGS with sound := false }).secondsLeft ≠
      (initialSeconds { DEFAULT_SETTINGS with sound := false } stDefaultMid.mode : Int) := by
  decide

/-- The raw setter sequence of `onCompleteCycle` never touches
`secondsLeft`. -/
lemma onCompleteCycle_secondsLeft (st : AppState) :
    (onCompleteCycle st).secondsLeft = st.secondsLeft := by
  unfold onCompleteCycle
  split <;> split <;> rfl

/-- The raw setter sequence of `onCompleteCycle` never touches the
settings. -/
lemma onCompleteCycle_settings (st : AppState) :
    (onCompleteCycle st).settings = st.settings := by
  unfold onCompleteCycle
  split <;> split <;> rfl

/-- The final running flag of `onCompleteCycle` is `autoStartNext`. -/
lemma onCompleteCycle_isRunning (st : AppState) :
    (onCompleteCycle st).isRunning = st.settings.autoStartNext := by
  unfold onCompleteCycle
  split <;> cases h : st.settings.autoStartNext <;> simp [h]

/-- The line-144 effect never changes the mode. -/
lemma sync_mode (old new : AppState) : (sync old new).mode = new.mode := by
  unfold sync
  split <;> rfl

/-- The line-144 effect never changes the settings. -/
lemma sync_settings (old new : AppState) : (sync old new).settings = new.settings := by
  unfold sync
  split <;> rfl

/-- What the line-144 effect leaves in `secondsLeft`: the value written
by the event when the full duration of the current mode kept its value
across the event, and the new full duration otherwise. -/
lemma sync_secondsLeft (old new : AppState) :
    (sync old new).secondsLeft =
      (if initialSeconds new.settings new.mode = initialSeconds old.settings old.mode
       then new.secondsLeft
       else (initialSeconds new.settings new.mode : Int)) := by
  unfold sync
  split <;> simp_all

/-- The line-144 effect preserves non-negativity of `secondsLeft`. -/
lemma sync_secondsLeft_nonneg (old new : AppState)
    (h : 0 ≤ new.secondsLeft) : 0 ≤ (sync old new).secondsLeft := by
  unfold sync
  split
  · exact h
  · exact Int.natCast_nonneg _

/-- C1 (amended): the completion transition ends with the running flag
equal to `autoStartNext`; completing a Work interval increments the
completed-rounds counter by exactly one and moves to the Long break iff
the incremented counter is divisible by `roundsUntilLongBreak`, else the
Short break; completing either break moves back to Work with the
counter unchanged; and `secondsLeft` is reset to the new mode's full
duration when that duration differs in value from the completed mode's
full duration, while it stays pinned at 0 when the two durations are
equal. -/
theorem completeCycle_spec (st : AppState) :
    (completeCycle st).isRunning = st.settings.autoStartNext ∧
    (completeCycle st).settings = st.settings ∧
    (st.mode = Mode.Work →
      (completeCycle st).roundsCompleted = st.roundsCompleted + 1 ∧
      (completeCycle st).mode =
        (if (st.roundsCompleted + 1) % st.settings.roundsUntilLongBreak = 0
         then Mode.Long else Mode.Short)) ∧
    (st.mode ≠ Mode.Work →
      (completeCycle st).mode = Mode.Work ∧
      (completeCycle st).roundsCompleted = st.roundsCompleted) ∧
    (completeCycle st).secondsLeft =
      (if initialSeconds st.settings (completeCycle st).mode =
          initialSeconds st.settings st.mode
       then 0
       else (initialSeconds st.settings (completeCycle st).mode : Int)) := by
  unfold completeCycle sync onCompleteCycle
  cases hm : st.mode <;>
    cases ha : st.settings.autoStartNext <;>
      simp [hm, ha] <;> split_ifs <;> simp_all

/-- C1 (counterexample): with work and short-break durations both 5
minutes, a running Work interval completing its last second moves to
the Short break but leaves `secondsLeft` at 0 rather than resetting it
to the Short break's full duration of 300 seconds, because the full
duration did not change in value and so the reset effect does not
re-run. -/
theorem completeCycle_counterexample :
    stWork5.isRunning = true ∧
    stWork5.secondsLeft ≤ 1 ∧
    (tick stWork5).mode = Mode.Short ∧
    (tick stWork5).secondsLeft = 0 ∧
    (initialSeconds stWork5.settings (tick stWork5).mode : Int) = 300 ∧
    (tick stWork5).secondsLeft ≠
      (initialSeconds stWork5.settings (tick stWork5).mode : Int) := by
  decide

/-- C1 (witness): the amended completion statement evaluated on the
default settings with three rounds already completed: the fourth Work
completion moves to the Long break. -/
theorem completeCycle_spec_witness :
    (completeCycle
        { settings := DEFAULT_SETTINGS, mode := Mode.Work, isRunning := true
          roundsCompleted := 3, secondsLeft := 0 }).roundsCompleted = 3 + 1 ∧
    (completeCycle
        { settings := DEFAULT_SETTINGS, mode := Mode.Work, isRunning := true
          roundsCompleted := 3, secondsLeft := 0 }).mode =
      (if (3 + 1) % DEFAULT_SETTINGS.roundsUntilLongBreak = 0
       then Mode.Long else Mode.Short) :=
  (completeCycle_spec
      { settings := DEFAULT_SETTINGS, mode := Mode.Work, isRunning := true
        roundsCompleted := 3, secondsLeft := 0 }).2.2.1 rfl

/-- The full completion transition keeps `secondsLeft` non-negative:
the callback pins it at 0 and the reset effect can only overwrite it
with a full duration, which is a natural number. -/
lemma completeCycle_secondsLeft_nonneg (st : AppState) :
    0 ≤ (completeCycle st).secondsLeft := by
  unfold completeCycle
  exact sync_secondsLeft_nonneg _ _ (by rw [onCompleteCycle_secondsLeft])

/-- C10: a tick taken with at most one second remaining (including
exactly zero) performs the completion transition with `secondsLeft`
pinned at 0 rather than decrementing below zero; a tick with more than
one second remaining decrements by exactly one; and every operation of
the component preserves non-negativity of `secondsLeft`. -/
theorem tick_nonneg_spec :
    (∀ st : AppState, st.isRunning = true → st.secondsLeft ≤ 1 →
      tick st = completeCycle st ∧
      (onCompleteCycle { st with secondsLeft := 0 }).secondsLeft = 0 ∧
      0 ≤ (tick st).secondsLeft) ∧
    (∀ st : AppState, st.isRunning = true → 1 < st.secondsLeft →
      (tick st).secondsLeft = st.secondsLeft - 1) ∧
    (∀ st : AppState, 0 ≤ st.secondsLeft →
      0 ≤ (tick st).secondsLeft ∧
      0 ≤ (handleStartPause st).secondsLeft ∧
      0 ≤ (handleReset st).secondsLeft ∧
      (∀ m, 0 ≤ (switchMode st m).secondsLeft) ∧
      0 ≤ (clearRounds st).secondsLeft ∧
      (∀ s, 0 ≤ (applySettings st s).secondsLeft) ∧
      0 ≤ (completeCycle st).secondsLeft) := by
  refine ⟨fun st _ h1 => ?_, fun st _ h1 => ?_, fun st h0 => ?_⟩
  · refine ⟨by unfold tick; rw [if_pos h1], onCompleteCycle_secondsLeft _, ?_⟩
    unfold tick
    rw [if_pos h1]
    exact completeCycle_secondsLeft_nonneg st
  · unfold tick
    rw [if_neg (by omega)]
  · refine ⟨?_, ?_, ?_, ?_, ?_, ?_, completeCycle_secondsLeft_nonneg st⟩
    · unfold tick
      split
      · exact completeCycle_secondsLeft_nonneg st
      · simp only []
        omega
    · exact sync_secondsLeft_nonneg _ _ h0
    · exact sync_secondsLeft_nonneg _ _ (Int.natCast_nonneg _)
    · exact fun m => sync_secondsLeft_nonneg _ _ h0
    · exact sync_secondsLeft_nonneg _ _ h0
    · exact fun s => sync_secondsLeft_nonneg _ _ h0

/-- C10 (witness): the three parts of the tick statement evaluated at
concrete states: completion at one second left, a plain decrement at
100 seconds left, and preservation of non-negativity. -/
theorem tick_nonneg_spec_witness :
    tick stWork5 = completeCycle stWork5 ∧
    (tick stDefaultMid).secondsLeft = stDefaultMid.secondsLeft - 1 ∧
    0 ≤ (tick stDefaultMid).secondsLeft :=
  ⟨(tick_nonneg_spec.1 stWork5 rfl (by decide)).1,
   tick_nonneg_spec.2.1 stDefaultMid rfl (by decide),
   (tick_nonneg_spec.2.2 stDefaultMid (by decide)).1⟩

/-- While strictly more than `N` seconds remain, `N` ticks amount to
subtracting `N` from `secondsLeft` and changing nothing else. -/
lemma tick_iterate_of_lt :
    ∀ (N : Nat) (st : AppState), (N : Int) < st.secondsLeft →
      tick^[N] st = { st with secondsLeft := st.secondsLeft - N } := by
  intro N
  induction N with
  | zero =>
    intro st _
    cases st
    simp
  | succ n ih =>
    intro st h
    rw [Function.iterate_succ_apply]
    have h1 : ¬ st.secondsLeft ≤ 1 := by
      have : ((n : Int) + 1) < st.secondsLeft := by exact_mod_cast h
      omega
    have ht : tick st = { st with secondsLeft := st.secondsLeft - 1 } := by
      unfold tick
      rw [if_neg h1]
    rw [ht, ih { st with secondsLeft := st.secondsLeft - 1 }
      (by
        simp only []
        have : ((n : Int) + 1) < st.secondsLeft := by exact_mod_cast h
        omega)]
    congr 1
    push_cast
    ring

/-- C2 (amended): starting from a running state with `secondsLeft` equal
to `D * 60`, as long as `N < D * 60` the first `N` ticks leave the state
running and count `secondsLeft` down to `max 0 (D * 60 - N)`; the tick
number `D * 60` instead triggers the completion transition with
`secondsLeft` pinned at 0, after which `secondsLeft` holds the next
mode's full duration when that differs in value from the current mode's
full duration, and otherwise remains 0. -/
theorem tick_countdown (D N : Nat) (st : AppState) (hD : 0 < D)
    (hrun : st.isRunning = true)
    (hs : st.secondsLeft = ((D * 60 : Nat) : Int))
    (hN : N < D * 60) :
    ((tick^[N] st).secondsLeft = max 0 (((D * 60 : Nat) : Int) - (N : Nat)) ∧
      (tick^[N] st).isRunning = true) ∧
    (tick^[D * 60] st).secondsLeft =
      (if initialSeconds st.settings (tick^[D * 60] st).mode =
          initialSeconds st.settings st.mode
       then 0
       else (initialSeconds st.settings (tick^[D * 60] st).mode : Int)) := by
  constructor
  · have hlt : (N : Int) < st.secondsLeft := by
      rw [hs]
      exact_mod_cast hN
    rw [tick_iterate_of_lt N st hlt]
    refine ⟨?_, hrun⟩
    rw [max_eq_right (by push_cast; omega)]
    rw [hs]
  · have hsplit : D * 60 = (D * 60 - 1) + 1 := by omega
    rw [hsplit, Function.iterate_succ_apply']
    have hlt1 : ((D * 60 - 1 : Nat) : Int) < st.secondsLeft := by
      rw [hs]
      push_cast
      omega
    rw [tick_iterate_of_lt _ st hlt1]
    have hs1 : st.secondsLeft - ((D * 60 - 1 : Nat) : Int) = 1 := by
      rw [hs]
      push_cast
      omega
    unfold tick
    rw [if_pos (by simp only [hs1]; omega)]
    unfold completeCycle
    rw [sync_secondsLeft, sync_mode, onCompleteCycle_secondsLeft,
      onCompleteCycle_settings]

/-- C2 (witness): three ticks on a one-minute running Work interval
leave 57 seconds. -/
theorem tick_countdown_witness :
    ((tick^[3] stWork1).secondsLeft = max 0 (((1 * 60 : Nat) : Int) - ((3 : Nat) : Nat)) ∧
      (tick^[3] stWork1).isRunning = true) ∧
    (tick^[1 * 60] stWork1).secondsLeft =
      (if initialSeconds stWork1.settings (tick^[1 * 60] stWork1).mode =
          initialSeconds stWork1.settings stWork1.mode
       then 0
       else (initialSeconds stWork1.settings (tick^[1 * 60] stWork1).mode : Int)) :=
  tick_countdown 1 3 stWork1 (by decide) rfl (by decide) (by decide)

set_option maxRecDepth 4000 in
/-- C2 (counterexample): on a one-minute running Work interval, the
60th tick completes the interval and `secondsLeft` ends at the Short
break's full duration of 300 seconds, not at `max 0 (60 - 60) = 0` as
the unamended claim states. -/
theorem tick_countdown_counterexample :
    stWork1.secondsLeft = ((1 * 60 : Nat) : Int) ∧
    stWork1.isRunning = true ∧
    (tick^[60] stWork1).secondsLeft = 300 ∧
    max 0 (((1 * 60 : Nat) : Int) - ((60 : Nat) : Int)) = 0 ∧
    (300 : Int) ≠ 0 := by
  decide

lemma toDigitsRev_zero (f : Nat) : toDigitsRev f 0 = [] := by
  cases f <;> simp [toDigitsRev]

lemma toDigitsRev_single (n : Nat) (h1 : 1 ≤ n) (h9 : n < 10) :
    toDigitsRev n n = [n] := by
  obtain ⟨m, rfl⟩ : ∃ m, n = m + 1 := ⟨n - 1, by omega⟩
  simp [toDigitsRev, Nat.mod_eq_of_lt h9, Nat.div_eq_of_lt h9, toDigitsRev_zero]

lemma decimalStr_lt_ten (n : Nat) (h : n < 10) :
    decimalStr n = String.mk [Nat.digitChar n] := by
  by_cases h0 : n = 0
  · subst h0
    decide
  · simp [decimalStr, h0, toDigitsRev_single n (by omega) h]

lemma toDigitsRev_length_pos (f n : Nat) (hf : 1 ≤ f) (hn : 1 ≤ n) :
    1 ≤ (toDigitsRev f n).length := by
  obtain ⟨g, rfl⟩ : ∃ g, f = g + 1 := ⟨f - 1, by omega⟩
  simp only [toDigitsRev]
  rw [if_neg (by omega : ¬ n = 0)]
  simp

lemma toDigitsRev_length_two (f n : Nat) (hf : 2 ≤ f) (hn : 10 ≤ n) :
    2 ≤ (toDigitsRev f n).length := by
  obtain ⟨g, rfl⟩ : ∃ g, f = g + 1 := ⟨f - 1, by omega⟩
  have hne : ¬ n = 0 := by omega
  have hg : 1 ≤ (toDigitsRev g (n / 10)).length :=
    toDigitsRev_length_pos g (n / 10) (by omega) (by omega)
  simp [toDigitsRev, hne]
  omega

lemma decimalStr_length_two (n : Nat) (h : 10 ≤ n) :
    2 ≤ (decimalStr n).length := by
  have hne : ¬ n = 0 := by omega
  have := toDigitsRev_length_two n n (by omega) h
  simpa [decimalStr, hne, String.length] using this

lemma padStart2_length_one (s : String) (h : s.length = 1) :
    padStart2 s = "0" ++ s := by
  simp only [padStart2, h]
  norm_num

lemma padStart2_decimalStr (n : Nat) :
    padStart2 (decimalStr n) = specPad2 n := by
  by_cases h : n < 10
  · rw [specPad2, if_pos h,
      padStart2_length_one _ (by rw [decimalStr_lt_ten n h]; rfl)]
  · rw [specPad2, if_neg h, padStart2,
      if_neg (by have := decimalStr_length_two n (by omega); omega)]

/-- C7: formatTime renders any non-negative number of seconds as MM:SS
with minutes floor(t / 60) and seconds t mod 60, each zero-padded to
width 2; in particular formatTime 65 = 01:05, formatTime 0 = 00:00 and
formatTime 3599 = 59:59. -/
theorem formatTime_spec :
    (∀ t : Nat, formatTime t = specFormatTime t) ∧
    formatTime 65 = "01:05" ∧
    formatTime 0 = "00:00" ∧
    formatTime 3599 = "59:59" := by
  refine ⟨fun t => ?_, by decide, by decide, by decide⟩
  unfold formatTime specFormatTime
  rw [padStart2_decimalStr, padStart2_decimalStr]

/-- C8: the derived progress value is the clamped percentage
clamp(0, 100, (1 - secondsLeft / totalSecondsForMode) * 100), with a
divisor that is always positive: when the configured duration of the
current mode is 0 the divisor 1 is substituted, so the division is
always well-defined. -/
theorem progress_spec (st : AppState) :
    0 < total st ∧
    total st = specTotalSecondsForMode st ∧
    progress st = specProgress st := by
  have htotal : total st = specTotalSecondsForMode st := by
    cases hm : st.mode <;>
      simp [total, specTotalSecondsForMode, specConfiguredMinutes,
        initialSeconds, hm, Nat.mul_eq_zero]
  refine ⟨?_, htotal, ?_⟩
  · unfold total
    split <;> omega
  · unfold progress specProgress specClamp
    rw [htotal]

/-- C9: loading settings never fails: a missing or empty stored blob
and a blob on which parsing throws each yield exactly the defaults
(no partial recovery), and a blob that parses is merged over the
defaults so that every absent field keeps its default value. -/
theorem loadSettings_spec :
    (∀ parse, loadSettings none parse = DEFAULT_SETTINGS) ∧
    (∀ parse, loadSettings (some "") parse = DEFAULT_SETTINGS) ∧
    (∀ raw parse, parse raw = none → loadSettings (some raw) parse = DEFAULT_SETTINGS) ∧
    (∀ raw parse p, raw ≠ "" → parse raw = some p →
      loadSettings (some raw) parse = mergeSettings DEFAULT_SETTINGS p) ∧
    (∀ p : PartialSettings,
      (p.workMinutes = none →
        (mergeSettings DEFAULT_SETTINGS p).workMinutes = DEFAULT_SETTINGS.workMinutes) ∧
      (p.shortBreakMinutes = none →
        (mergeSettings DEFAULT_SETTINGS p).shortBreakMinutes = DEFAULT_SETTINGS.shortBreakMinutes) ∧
      (p.longBreakMinutes = none →
        (mergeSettings DEFAULT_SETTINGS p).longBreakMinutes = DEFAULT_SETTINGS.longBreakMinutes) ∧
      (p.roundsUntilLongBreak = none →
        (mergeSettings DEFAULT_SETTINGS p).roundsUntilLongBreak = DEFAULT_SETTINGS.roundsUntilLongBreak) ∧
      (p.autoStartNext = none →
        (mergeSettings DEFAULT_SETTINGS p).autoStartNext = DEFAULT_SETTINGS.autoStartNext) ∧
      (p.sound = none →
        (mergeSettings DEFAULT_SETTINGS p).sound = DEFAULT_SETTINGS.sound)) := by
  refine ⟨fun parse => rfl, fun parse => rfl, ?_, ?_, ?_⟩
  · intro raw parse hp
    by_cases hraw : raw = ""
    · simp [loadSettings, hraw]
    · simp [loadSettings, hraw, hp]
  · intro raw parse p hraw hp
    simp [loadSettings, hraw, hp]
  · intro p
    refine ⟨fun h => ?_, fun h => ?_, fun h => ?_, fun h => ?_, fun h => ?_, fun h => ?_⟩ <;>
      simp [mergeSettings, h]

/-- C9 (witness): the loading statement evaluated at concrete inputs: a
missing blob, an unparsable blob, and a blob carrying only the work
duration, whose absent short-break field keeps its default of 5. -/
theorem loadSettings_spec_witness :
    loadSettings none (fun _ => none) = DEFAULT_SETTINGS ∧
    loadSettings (some "garbage") (fun _ => none) = DEFAULT_SETTINGS ∧
    loadSettings (some "blob") (fun _ => some pOnlyWork) =
      mergeSettings DEFAULT_SETTINGS pOnlyWork ∧
    (mergeSettings DEFAULT_SETTINGS pOnlyWork).shortBreakMinutes =
      DEFAULT_SETTINGS.shortBreakMinutes :=
  ⟨loadSettings_spec.1 _,
   loadSettings_spec.2.2.1 "garbage" _ rfl,
   loadSettings_spec.2.2.2.1 "blob" _ pOnlyWork (by decide) rfl,
   (loadSettings_spec.2.2.2.2 pOnlyWork).2.1 rfl⟩
